import Mathlib

/-!
Verification of the selection/navigation state machine of `tui-widget-list`
(`src/state.rs`).  The Rust struct `ListState` is embedded shallowly: each
mutating method becomes a pure function `ListState → ... → ListState`, and
`usize` becomes `Nat` (every subtraction in the source is either guarded by a
zero test or written with `saturating_sub`, so plain `Nat` subtraction has the
same semantics; panic-freedom of the unguarded-looking sites is established
separately via checked variants `next?` / `previous?`).
-/

/-- Embeds `ViewState` (src/state.rs): first visible item offset and the
truncation of the first visible item. -/
structure ViewState where
  offset : Nat
  first_truncated : Nat
deriving DecidableEq, Repr

/-- Embeds `ListState` (src/state.rs). -/
structure ListState where
  selected : Option (Nat × Option Nat)
  num_elements : List Nat
  expanded : List Nat
  infinite_scrolling : Bool
  view_state : ViewState
deriving DecidableEq, Repr

/-- `ListState::default`. -/
def ListState.default : ListState :=
  { selected := none
    num_elements := []
    expanded := []
    infinite_scrolling := true
    view_state := { offset := 0, first_truncated := 0 } }

/-- `ListState::set_infinite_scrolling`. -/
def ListState.set_infinite_scrolling (s : ListState) (b : Bool) : ListState :=
  { s with infinite_scrolling := b }

/-- `ListState::select`: select a main item (or clear); clearing resets the
viewport offset. -/
def ListState.select (s : ListState) (index : Option Nat) : ListState :=
  { s with
    selected := index.map (fun i => (i, none))
    view_state :=
      if index.isNone then { s.view_state with offset := 0 } else s.view_state }

/-- `ListState::select_child`: set the full selection tuple; clearing resets
the viewport offset. -/
def ListState.select_child (s : ListState) (index : Option (Nat × Option Nat)) :
    ListState :=
  { s with
    selected := index
    view_state :=
      if index.isNone then { s.view_state with offset := 0 } else s.view_state }

/-- `ListState::collapse_all`. -/
def ListState.collapse_all (s : ListState) : ListState :=
  { s with
    expanded := []
    selected := s.selected.map (fun sel => (sel.1, none)) }

/-- `ListState::collapse_selected` (`retain(|&x| x != selected.0)`). -/
def ListState.collapse_selected (s : ListState) : ListState :=
  match s.selected with
  | none => s
  | some sel =>
      { s with
        expanded := s.expanded.filter (fun x => x ≠ sel.1)
        selected := some (sel.1, none) }

/-- `ListState::expand_all`: push `0, 1, ..., len-1` onto a cleared list. -/
def ListState.expand_all (s : ListState) : ListState :=
  { s with expanded := List.range s.num_elements.length }

/-- `ListState::is_expanded` (`find(|&&x| x == index).is_some()`). -/
def ListState.is_expanded (s : ListState) (index : Nat) : Bool :=
  (s.expanded.find? (fun x => x == index)).isSome

/-- `ListState::expand_selected`. -/
def ListState.expand_selected (s : ListState) : ListState :=
  match s.selected with
  | none => s
  | some sel =>
      if s.is_expanded sel.1 then s
      else { s with expanded := s.expanded ++ [sel.1] }

/-- `ListState::get_selected_child`. -/
def ListState.get_selected_child (s : ListState) (index : Nat) : Option Nat :=
  match s.selected with
  | none => none
  | some sel => if sel.1 = index then sel.2 else none

/-- `ListState::is_selected`. -/
def ListState.is_selected (s : ListState) (index : Nat) : Bool :=
  match s.selected with
  | none => false
  | some sel => sel.1 == index

/-- The local helper `next_main_item` inside `ListState::next`.  The source
computes `num_elements - 1` with `num_elements = self.num_elements.len() ≥ 1`
(guarded by the `is_empty` early return), so `Nat` subtraction is faithful. -/
def next_main_item (index : Nat) (num_elements : Nat) (infinite_scrolling : Bool) :
    Nat × Option Nat :=
  if index ≥ num_elements - 1 then
    if infinite_scrolling then (0, none) else (index, none)
  else (index + 1, none)

/-- The selection value computed by the body of `ListState::next` (the `i`
that the source then feeds to `select_child(Some(i))`). -/
def nextSelection (s : ListState) : Nat × Option Nat :=
  match s.selected with
  | some (i, j) =>
      match s.num_elements[i]? with
      | some sub_items =>
          if s.is_expanded i then
            match j with
            | none => (i, some 0)
            | some j =>
                if j ≥ sub_items - 1 then
                  next_main_item i s.num_elements.length s.infinite_scrolling
                else (i, some (j + 1))
          else next_main_item i s.num_elements.length s.infinite_scrolling
      | none => next_main_item i s.num_elements.length s.infinite_scrolling
  | none => (0, none)

/-- `ListState::next`. -/
def ListState.next (s : ListState) : ListState :=
  if s.num_elements.isEmpty then s
  else s.select_child (some (nextSelection s))

/-- The local helper `prev_main_item` inside `ListState::previous`.
`index - 1` is guarded by `index ≠ 0`; `len - 1` by `len ≠ 0`;
`num_elements.len().saturating_sub(1)` is saturating in the source. -/
def prev_main_item (index : Nat) (num_elements : List Nat) (expanded : List Nat)
    (infinite_scrolling : Bool) : Nat × Option Nat :=
  if index = 0 ∧ infinite_scrolling = false then (index, none)
  else
    let prev_index := if index = 0 then num_elements.length - 1 else index - 1
    if (expanded.find? (fun x => x == prev_index)).isSome then
      let sub_element :=
        match num_elements[prev_index]? with
        | some len => if len = 0 then none else some (len - 1)
        | none => none
      (prev_index, sub_element)
    else (prev_index, none)

/-- The selection value computed by the body of `ListState::previous`. -/
def prevSelection (s : ListState) : Nat × Option Nat :=
  match s.selected with
  | some (i, j) =>
      match s.num_elements[i]? with
      | some _ =>
          match j with
          | some j => if j = 0 then (i, none) else (i, some (j - 1))
          | none => prev_main_item i s.num_elements s.expanded s.infinite_scrolling
      | none => prev_main_item i s.num_elements s.expanded s.infinite_scrolling
  | none => (0, none)

/-- `ListState::previous`. -/
def ListState.previous (s : ListState) : ListState :=
  if s.num_elements.isEmpty then s
  else s.select_child (some (prevSelection s))

/-- `ListState::set_num_elements` (`retain(|&x| x < num_elements.len())`). -/
def ListState.set_num_elements (s : ListState) (num_elements : List Nat) :
    ListState :=
  { s with
    expanded := s.expanded.filter (fun x => decide (x < num_elements.length))
    num_elements := num_elements }

/-! ### Checked variants

The only sites in `next`/`previous` where the Rust source subtracts without a
saturating operation are: `num_elements - 1` in `next_main_item`, `index - 1`
and `len - 1` in `prev_main_item`, and `j - 1` in `previous`.  Indexing is
always through `get` (returns `Option`).  The checked variants below replace
each such subtraction with `checkedSub`, which fails on underflow; proving
they always succeed (and agree with the plain embedding) captures "no
arithmetic underflow and no out-of-bounds access". -/

/-- Subtraction that fails on `usize` underflow. -/
def checkedSub (a b : Nat) : Option Nat :=
  if b ≤ a then some (a - b) else none

/-- `next_main_item` with the unguarded `num_elements - 1` checked. -/
def next_main_item? (index : Nat) (num_elements : Nat)
    (infinite_scrolling : Bool) : Option (Nat × Option Nat) :=
  match checkedSub num_elements 1 with
  | none => none
  | some m =>
      if index ≥ m then
        if infinite_scrolling then some (0, none) else some (index, none)
      else some (index + 1, none)

/-- The selection computed by `next`, with checked subtraction.  The
`sub_items.saturating_sub(1)` of the source is saturating and stays plain. -/
def nextSelection? (s : ListState) : Option (Nat × Option Nat) :=
  match s.selected with
  | some (i, j) =>
      match s.num_elements[i]? with
      | some sub_items =>
          if s.is_expanded i then
            match j with
            | none => some (i, some 0)
            | some j =>
                if j ≥ sub_items - 1 then
                  next_main_item? i s.num_elements.length s.infinite_scrolling
                else some (i, some (j + 1))
          else next_main_item? i s.num_elements.length s.infinite_scrolling
      | none => next_main_item? i s.num_elements.length s.infinite_scrolling
  | none => some (0, none)

/-- `ListState::next` with checked subtraction. -/
def ListState.next? (s : ListState) : Option ListState :=
  if s.num_elements.isEmpty then some s
  else
    match nextSelection? s with
    | none => none
    | some i => some (s.select_child (some i))

/-- `prev_main_item` with the unguarded `index - 1` and `len - 1` checked
(`num_elements.len().saturating_sub(1)` is saturating in the source). -/
def prev_main_item? (index : Nat) (num_elements : List Nat)
    (expanded : List Nat) (infinite_scrolling : Bool) :
    Option (Nat × Option Nat) :=
  if index = 0 ∧ infinite_scrolling = false then some (index, none)
  else
    match (if index = 0 then some (num_elements.length - 1)
           else checkedSub index 1) with
    | none => none
    | some prev_index =>
        if (expanded.find? (fun x => x == prev_index)).isSome then
          match num_elements[prev_index]? with
          | some len =>
              if len = 0 then some (prev_index, none)
              else
                match checkedSub len 1 with
                | none => none
                | some l => some (prev_index, some l)
          | none => some (prev_index, none)
        else some (prev_index, none)

/-- The selection computed by `previous`, with the unguarded `j - 1`
checked. -/
def prevSelection? (s : ListState) : Option (Nat × Option Nat) :=
  match s.selected with
  | some (i, j) =>
      match s.num_elements[i]? with
      | some _ =>
          match j with
          | some j =>
              if j = 0 then some (i, none)
              else
                match checkedSub j 1 with
                | none => none
                | some l => some (i, some l)
          | none =>
              prev_main_item? i s.num_elements s.expanded s.infinite_scrolling
      | none => prev_main_item? i s.num_elements s.expanded s.infinite_scrolling
  | none => some (0, none)

/-- `ListState::previous` with checked subtraction. -/
def ListState.previous? (s : ListState) : Option ListState :=
  if s.num_elements.isEmpty then some s
  else
    match prevSelection? s with
    | none => none
    | some i => some (s.select_child (some i))

/-- States reachable from `ListState::default` by the public operations of the
state machine (arguments arbitrary). -/
inductive Reachable : ListState → Prop where
  | dflt : Reachable ListState.default
  | select (s : ListState) (i : Option Nat) :
      Reachable s → Reachable (s.select i)
  | select_child (s : ListState) (i : Option (Nat × Option Nat)) :
      Reachable s → Reachable (s.select_child i)
  | next (s : ListState) : Reachable s → Reachable s.next
  | previous (s : ListState) : Reachable s → Reachable s.previous
  | expand_all (s : ListState) : Reachable s → Reachable s.expand_all
  | expand_selected (s : ListState) : Reachable s → Reachable s.expand_selected
  | collapse_all (s : ListState) : Reachable s → Reachable s.collapse_all
  | collapse_selected (s : ListState) :
      Reachable s → Reachable s.collapse_selected
  | set_num_elements (s : ListState) (c : List Nat) :
      Reachable s → Reachable (s.set_num_elements c)
  | set_infinite_scrolling (s : ListState) (b : Bool) :
      Reachable s → Reachable (s.set_infinite_scrolling b)

/-! ### Helper lemmas -/

theorem find_isSome_iff (l : List Nat) (a : Nat) :
    ((l.find? (fun x => x == a)).isSome = true) ↔ a ∈ l := by
  simp [List.find?_isSome]

theorem is_expanded_iff (s : ListState) (i : Nat) :
    s.is_expanded i = true ↔ i ∈ s.expanded := by
  unfold ListState.is_expanded
  exact find_isSome_iff _ _

theorem is_expanded_of_nil (s : ListState) (i : Nat) (h : s.expanded = []) :
    s.is_expanded i = false := by
  unfold ListState.is_expanded
  rw [h]
  rfl

theorem next_frame (s : ListState) :
    s.next.num_elements = s.num_elements ∧ s.next.expanded = s.expanded ∧
    s.next.infinite_scrolling = s.infinite_scrolling ∧
    s.next.view_state = s.view_state := by
  unfold ListState.next ListState.select_child
  split <;> simp

theorem previous_frame (s : ListState) :
    s.previous.num_elements = s.num_elements ∧
    s.previous.expanded = s.expanded ∧
    s.previous.infinite_scrolling = s.infinite_scrolling ∧
    s.previous.view_state = s.view_state := by
  unfold ListState.previous ListState.select_child
  split <;> simp

theorem next_selected_of_ne (s : ListState) (h : s.num_elements ≠ []) :
    s.next.selected = some (nextSelection s) := by
  unfold ListState.next ListState.select_child
  simp [h]

theorem previous_selected_of_ne (s : ListState) (h : s.num_elements ≠ []) :
    s.previous.selected = some (prevSelection s) := by
  unfold ListState.previous ListState.select_child
  simp [h]

theorem nextSelection_not_expanded (s : ListState) (i : Nat) (jo : Option Nat)
    (hs : s.selected = some (i, jo)) (hne : s.is_expanded i = false) :
    nextSelection s =
      next_main_item i s.num_elements.length s.infinite_scrolling := by
  have hx : ¬ (s.is_expanded i = true) := by simp [hne]
  simp only [nextSelection, hs]
  split
  · rw [if_neg hx]
  · rfl

/-! ### Claim theorems -/

/-- C4: from the default state with child counts `[2, 0, 1]`, wrap-around
enabled and nothing expanded: `next()` selects `Main(0)`; after
`expand_selected()`, successive `next()` calls select `Child(0,0)`,
`Child(0,1)`, `Main(1)`, `Main(2)` and finally `Main(0)` (wrap). -/
theorem C4_concrete_scenario :
    (ListState.default.set_num_elements [2, 0, 1]).next.selected
        = some (0, none) ∧
    (ListState.default.set_num_elements [2, 0, 1]).next.expand_selected.next.selected
        = some (0, some 0) ∧
    (ListState.default.set_num_elements [2, 0, 1]).next.expand_selected.next.next.selected
        = some (0, some 1) ∧
    (ListState.default.set_num_elements [2, 0, 1]).next.expand_selected.next.next.next.selected
        = some (1, none) ∧
    (ListState.default.set_num_elements [2, 0, 1]).next.expand_selected.next.next.next.next.selected
        = some (2, none) ∧
    (ListState.default.set_num_elements [2, 0, 1]).next.expand_selected.next.next.next.next.next.selected
        = some (0, none) := by
  decide

/-- C5 counterexample: clearing the selection does NOT reset the first-item
truncation; on a state with `first_truncated = 7` the viewport after
`select(None)` is `(0, 7)`, not `(0, 0)`. -/
theorem C5_cex :
    ¬ ((({ selected := some (1, none), num_elements := [], expanded := [],
            infinite_scrolling := true,
            view_state := { offset := 3, first_truncated := 7 } } :
          ListState).select none).view_state
        = { offset := 0, first_truncated := 0 }) := by
  decide

/-- C5 amended: clearing the selection via `select(None)` or
`select_child(None)` resets only the viewport offset to 0 and leaves the
first-item truncation unchanged; `select(Some i)` sets the selection to
`(i, None)` without changing the viewport fields or the expanded set. -/
theorem C5_select_amended (s : ListState) (i : Nat) :
    (s.select none).selected = none ∧
    (s.select none).view_state.offset = 0 ∧
    (s.select none).view_state.first_truncated
        = s.view_state.first_truncated ∧
    (s.select none).expanded = s.expanded ∧
    (s.select_child none).selected = none ∧
    (s.select_child none).view_state.offset = 0 ∧
    (s.select_child none).view_state.first_truncated
        = s.view_state.first_truncated ∧
    (s.select_child none).expanded = s.expanded ∧
    (s.select (some i)).selected = some (i, none) ∧
    (s.select (some i)).view_state = s.view_state ∧
    (s.select (some i)).expanded = s.expanded := by
  simp [ListState.select, ListState.select_child]

/-- C6 counterexample: the state reached from the default state by
`select(Some 5)` then `expand_selected()` has `5` in its expanded set while
the child-count sequence is empty, so the expanded-set bound invariant fails
on a reachable state. -/
theorem C6_cex :
    Reachable ((ListState.default.select (some 5)).expand_selected) ∧
    5 ∈ ((ListState.default.select (some 5)).expand_selected).expanded ∧
    ¬ (5 < ((ListState.default.select (some 5)).expand_selected).num_elements.length) :=
  ⟨Reachable.expand_selected _ (Reachable.select _ _ Reachable.dflt),
   by decide, by decide⟩

/-- C6 amended: immediately after any `set_num_elements` call every index in
the expanded set is strictly below the new item count (the set is pruned on
every size-sync); between syncs, `expand_selected` with an out-of-range
selection can insert an out-of-range index. -/
theorem C6_expanded_bound_after_sync (s : ListState) (c : List Nat) :
    ((s.set_num_elements c).expanded.all
      (fun x => decide (x < c.length))) = true := by
  simp only [ListState.set_num_elements, List.all_eq_true]
  intro x hx
  exact (List.mem_filter.mp hx).2

/-- C7: `set_num_elements` replaces the child-count table, keeps exactly the
expanded indices below the new length (a sublist, so order is preserved), and
leaves the selection untouched even if it is now out of range. -/
theorem C7_set_num_elements (s : ListState) (c : List Nat) :
    (s.set_num_elements c).num_elements = c ∧
    (s.set_num_elements c).expanded.Sublist s.expanded ∧
    (∀ x, x ∈ (s.set_num_elements c).expanded ↔
        (x ∈ s.expanded ∧ x < c.length)) ∧
    (s.set_num_elements c).selected = s.selected := by
  refine ⟨rfl, List.filter_sublist _, fun x => ?_, rfl⟩
  simp [ListState.set_num_elements, List.mem_filter]

/-- C9: `next()` and `previous()` on a state with a non-empty child-count
sequence change only the selection (and always leave it `Some`); on an empty
sequence they leave the whole state unchanged. -/
theorem C9_frame (s : ListState) :
    if s.num_elements.isEmpty then s.next = s ∧ s.previous = s
    else
      (s.next.num_elements = s.num_elements ∧ s.next.expanded = s.expanded ∧
       s.next.infinite_scrolling = s.infinite_scrolling ∧
       s.next.view_state = s.view_state ∧ s.next.selected.isSome = true) ∧
      (s.previous.num_elements = s.num_elements ∧
       s.previous.expanded = s.expanded ∧
       s.previous.infinite_scrolling = s.infinite_scrolling ∧
       s.previous.view_state = s.view_state ∧
       s.previous.selected.isSome = true) := by
  by_cases h : s.num_elements.isEmpty
  · simp only [h, if_true]
    unfold ListState.next ListState.previous
    simp [h]
  · simp only [h, if_false]
    have hne : s.num_elements ≠ [] := by
      simpa [List.isEmpty_iff] using h
    refine ⟨⟨(next_frame s).1, (next_frame s).2.1, (next_frame s).2.2.1,
        (next_frame s).2.2.2, ?_⟩,
      ⟨(previous_frame s).1, (previous_frame s).2.1, (previous_frame s).2.2.1,
        (previous_frame s).2.2.2, ?_⟩⟩
    · rw [next_selected_of_ne s hne]; rfl
    · rw [previous_selected_of_ne s hne]; rfl

/-- C10: every state reachable from the default state by the public
operations has an expanded set without duplicate indices: `expand_selected`
pushes only when absent, `expand_all` rebuilds from distinct indices, and the
remaining operations only remove entries or leave the set unchanged. -/
theorem C10_expanded_nodup (s : ListState) (h : Reachable s) :
    s.expanded.Nodup := by
  induction h with
  | dflt => simp [ListState.default]
  | select s i _ ih => simpa [ListState.select] using ih
  | select_child s i _ ih => simpa [ListState.select_child] using ih
  | next s _ ih => simpa [(next_frame s).2.1] using ih
  | previous s _ ih => simpa [(previous_frame s).2.1] using ih
  | expand_all s _ _ => simp [ListState.expand_all, List.nodup_range]
  | expand_selected s _ ih =>
      unfold ListState.expand_selected
      split
      · exact ih
      · rename_i sel heq
        split
        · exact ih
        · rename_i hnexp
          have hmem : sel.1 ∉ s.expanded := fun hm =>
            hnexp ((is_expanded_iff s sel.1).mpr hm)
          exact ((List.perm_append_singleton _ _).nodup_iff).mpr
            (List.nodup_cons.mpr ⟨hmem, ih⟩)
  | collapse_all s _ _ => simp [ListState.collapse_all]
  | collapse_selected s _ ih =>
      unfold ListState.collapse_selected
      split
      · exact ih
      · exact ih.filter _
  | set_num_elements s c _ ih => exact ih.filter _
  | set_infinite_scrolling s b _ ih =>
      simpa [ListState.set_infinite_scrolling] using ih

/-- Witness for C10 at a concrete reachable state. -/
theorem C10_expanded_nodup_witness :
    ((ListState.default.select (some 0)).expand_selected).expanded.Nodup :=
  C10_expanded_nodup _
    (Reachable.expand_selected _ (Reachable.select _ _ Reachable.dflt))

theorem next_main_item?_eq (i N : Nat) (w : Bool) (h : 1 ≤ N) :
    next_main_item? i N w = some (next_main_item i N w) := by
  unfold next_main_item? next_main_item
  simp only [checkedSub, if_pos h]
  split_ifs <;> rfl

theorem prev_main_item?_eq (i : Nat) (c e : List Nat) (w : Bool) :
    prev_main_item? i c e w = some (prev_main_item i c e w) := by
  unfold prev_main_item? prev_main_item
  by_cases h0 : i = 0 ∧ w = false
  · rw [if_pos h0, if_pos h0]
  · rw [if_neg h0, if_neg h0]
    have hp : (if i = 0 then some (c.length - 1) else checkedSub i 1)
        = some (if i = 0 then c.length - 1 else i - 1) := by
      by_cases hi : i = 0
      · simp [hi]
      · have h1 : 1 ≤ i := Nat.one_le_iff_ne_zero.mpr hi
        simp [hi, checkedSub, h1]
    rw [hp]
    dsimp only
    set p := (if i = 0 then c.length - 1 else i - 1) with hpdef
    by_cases hf : ((e.find? (fun x => x == p)).isSome = true)
    · rw [if_pos hf, if_pos hf]
      cases hg : (c)[p]? with
      | none => rfl
      | some len =>
          by_cases hl : len = 0
          · simp [hg, hl]
          · have h1 : 1 ≤ len := Nat.one_le_iff_ne_zero.mpr hl
            simp [hg, hl, checkedSub, h1]
    · rw [if_neg hf, if_neg hf]

theorem nextSelection?_eq (s : ListState) (h : 1 ≤ s.num_elements.length) :
    nextSelection? s = some (nextSelection s) := by
  unfold nextSelection? nextSelection
  cases hs : s.selected with
  | none => rfl
  | some p =>
      obtain ⟨i, j⟩ := p
      dsimp only
      cases hg : s.num_elements[i]? with
      | none => exact next_main_item?_eq _ _ _ h
      | some sub_items =>
          by_cases he : s.is_expanded i
          · cases j with
            | none => simp [he]
            | some j =>
                by_cases hj : j ≥ sub_items - 1
                · simp [he, hj, next_main_item?_eq _ _ _ h]
                · simp [he, hj]
          · simp [he, next_main_item?_eq _ _ _ h]

theorem prevSelection?_eq (s : ListState) :
    prevSelection? s = some (prevSelection s) := by
  unfold prevSelection? prevSelection
  cases hs : s.selected with
  | none => rfl
  | some p =>
      obtain ⟨i, j⟩ := p
      dsimp only
      cases hg : s.num_elements[i]? with
      | none => exact prev_main_item?_eq _ _ _ _
      | some d =>
          cases j with
          | none => exact prev_main_item?_eq _ _ _ _
          | some j =>
              by_cases hj : j = 0
              · simp [hj]
              · have h1 : 1 ≤ j := Nat.one_le_iff_ne_zero.mpr hj
                simp [hj, checkedSub, h1]

/-- C8: the state machine never panics.  The checked variants of `next` and
`previous`, in which every subtraction of the Rust source that is not
saturating or branch-guarded fails on underflow and every index access is an
`Option` lookup, succeed on every state — including states whose selected
main index is beyond the child-count table or whose child index exceeds a
shrunk child count — and agree with the plain embedding.  (All remaining
operations contain no subtraction and no direct indexing, so they are total
by construction.) -/
theorem C8_totality (s : ListState) :
    s.next? = some s.next ∧ s.previous? = some s.previous := by
  constructor
  · unfold ListState.next? ListState.next
    by_cases h : s.num_elements.isEmpty
    · simp [h]
    · have h1 : 1 ≤ s.num_elements.length := by
        cases hl : s.num_elements with
        | nil => rw [hl] at h; simp at h
        | cons a t => simp [hl]
      simp [h, nextSelection?_eq s h1]
  · unfold ListState.previous? ListState.previous
    by_cases h : s.num_elements.isEmpty
    · simp [h]
    · simp [h, prevSelection?_eq s]
theorem next_eq_record (s : ListState) (h : s.num_elements ≠ []) :
    s.next = { s with selected := some (nextSelection s) } := by
  unfold ListState.next ListState.select_child
  simp [h]

theorem prevSelection_main (t : ListState) (m : Nat)
    (hm : t.selected = some (m, none)) :
    prevSelection t
      = prev_main_item m t.num_elements t.expanded t.infinite_scrolling := by
  unfold prevSelection
  simp only [hm]
  cases t.num_elements[m]? <;> rfl

theorem prevSelection_child (t : ListState) (m j : Nat)
    (hm : t.selected = some (m, some j)) (hmN : m < t.num_elements.length) :
    prevSelection t = if j = 0 then (m, none) else (m, some (j - 1)) := by
  unfold prevSelection
  simp only [hm]
  have hg : t.num_elements[m]? = some (t.num_elements.get ⟨m, hmN⟩) := by
    simp [List.getElem?_eq_getElem hmN]
  rw [hg]

theorem prev_main_item_eq_spec (i : Nat) (c e : List Nat) (w : Bool) :
    prev_main_item i c e w =
      (if i = 0 ∧ w = false then (0, none)
       else
         let p := if i = 0 then c.length - 1 else i - 1
         (p, if p ∈ e then
               match (c)[p]? with
               | some (k + 1) => some k
               | _ => none
             else none)) := by
  unfold prev_main_item
  by_cases h0 : i = 0 ∧ w = false
  · rw [if_pos h0, if_pos h0]
    simp [h0.1]
  · rw [if_neg h0, if_neg h0]
    dsimp only
    set p := (if i = 0 then c.length - 1 else i - 1) with hpdef
    by_cases hf : ((e.find? (fun x => x == p)).isSome = true)
    · rw [if_pos hf, if_pos ((find_isSome_iff e p).mp hf)]
      cases hg : (c)[p]? with
      | none => rfl
      | some len =>
          rcases len with _ | k
          · simp [hg]
          · simp [hg]
    · rw [if_neg hf, if_neg (fun hm => hf ((find_isSome_iff e p).mpr hm))]

/-- C3: `previous()` from a selection with no child component: at `Main(0)`
with wrap-around disabled the selection stays at `Main(0)`; otherwise it moves
to the previous main index (wrapping from 0 to the last index), and if the
newly landed index is expanded with recorded child count `k > 0` the selection
becomes `Child(prev, k-1)`, while a recorded count of 0 (or an absent record)
yields the main item with no child. -/
theorem C3_previous_from_main (s : ListState) (i : Nat)
    (hne : s.num_elements ≠ []) (hsel : s.selected = some (i, none)) :
    s.previous.selected = some (
      if i = 0 ∧ s.infinite_scrolling = false then (0, none)
      else
        let p := if i = 0 then s.num_elements.length - 1 else i - 1
        (p, if p ∈ s.expanded then
              match s.num_elements[p]? with
              | some (k + 1) => some k
              | _ => none
            else none)) := by
  rw [previous_selected_of_ne s hne]
  rw [prevSelection_main s i hsel]
  rw [prev_main_item_eq_spec]

/-- Witness for C3: on counts `[2,1]` with item 0 expanded, wrap on, from
`Main(1)`, `previous()` lands on `Child(0,1)` (last child of item 0). -/
theorem C3_previous_from_main_witness :
    (({ selected := some (1, none), num_elements := [2, 1], expanded := [0],
        infinite_scrolling := true,
        view_state := { offset := 0, first_truncated := 0 } } :
      ListState).previous).selected = some (0, some 1) :=
  (C3_previous_from_main _ 1 (by decide) rfl).trans (by decide)

theorem previous_selected_record (s : ListState) (p : Nat × Option Nat)
    (h : s.num_elements ≠ []) :
    ({ s with selected := some p } : ListState).previous.selected
      = some (prevSelection { s with selected := some p }) :=
  previous_selected_of_ne _ h

theorem prevSelection_record_main (s : ListState) (m : Nat) :
    prevSelection { s with selected := some (m, none) }
      = prev_main_item m s.num_elements s.expanded s.infinite_scrolling :=
  prevSelection_main _ m rfl

theorem prevSelection_record_child (s : ListState) (m j : Nat)
    (hmN : m < s.num_elements.length) :
    prevSelection { s with selected := some (m, some j) }
      = if j = 0 then (m, none) else (m, some (j - 1)) :=
  prevSelection_child _ m j rfl hmN

theorem nextSelection_expanded_none (s : ListState) (i si : Nat)
    (hsel : s.selected = some (i, none))
    (hget : s.num_elements[i]? = some si) (he : s.is_expanded i = true) :
    nextSelection s = (i, some 0) := by
  unfold nextSelection
  simp only [hsel]
  rw [hget]
  simp [he]

theorem nextSelection_expanded_some (s : ListState) (i j si : Nat)
    (hsel : s.selected = some (i, some j))
    (hget : s.num_elements[i]? = some si) (he : s.is_expanded i = true) :
    nextSelection s =
      if j ≥ si - 1 then
        next_main_item i s.num_elements.length s.infinite_scrolling
      else (i, some (j + 1)) := by
  unfold nextSelection
  simp only [hsel]
  rw [hget]
  simp [he]

/-- C1 amended: `next()` followed by `previous()` restores the selection for
every consistent non-empty selection when wrap-around is enabled (a selection
is consistent when its main index is in range and a selected child lies below
the recorded child count of its — expanded — parent).  With wrap-around
disabled the round trip fails at the clamping boundary (see the
counterexample). -/
theorem C1_round_trip (s : ListState) (i : Nat) (jo : Option Nat)
    (hw : s.infinite_scrolling = true)
    (hsel : s.selected = some (i, jo))
    (hi : i < s.num_elements.length)
    (hj : ∀ j, jo = some j → i ∈ s.expanded ∧
        ∃ k, s.num_elements[i]? = some k ∧ j < k) :
    s.next.previous.selected = s.selected := by
  have hN : 0 < s.num_elements.length := lt_of_le_of_lt (Nat.zero_le i) hi
  have hne : s.num_elements ≠ [] := by
    intro h
    rw [h] at hN
    simp at hN
  obtain ⟨si, hget⟩ : ∃ si, s.num_elements[i]? = some si :=
    ⟨_, List.getElem?_eq_getElem hi⟩
  rw [next_eq_record s hne, hsel]
  by_cases he : s.is_expanded i
  · cases jo with
    | none =>
        rw [nextSelection_expanded_none s i si hsel hget he]
        rw [previous_selected_record s (i, some 0) hne]
        rw [prevSelection_record_child s i 0 hi]
        simp
    | some j =>
        obtain ⟨hiE, k, hk, hjk⟩ := hj j rfl
        rw [hget] at hk
        have hjsi : j < si := by
          have : si = k := (Option.some.injEq _ _).mp hk
          omega
        rw [nextSelection_expanded_some s i j si hsel hget he]
        by_cases hcmp : j ≥ si - 1
        · rw [if_pos hcmp]
          obtain ⟨m, rfl⟩ : ∃ m, si = m + 1 := ⟨si - 1, by omega⟩
          obtain rfl : j = m := by omega
          by_cases hlast : i ≥ s.num_elements.length - 1
          · have hieq : i = s.num_elements.length - 1 := by omega
            have hnmi : next_main_item i s.num_elements.length
                s.infinite_scrolling = (0, none) := by
              unfold next_main_item
              rw [hw, if_pos hlast]
              simp
            rw [hnmi]
            rw [previous_selected_record s (0, none) hne]
            rw [prevSelection_record_main s 0]
            rw [prev_main_item_eq_spec, hw]
            rw [if_neg (by simp : ¬ ((0 : Nat) = 0 ∧ true = false))]
            dsimp only
            rw [if_pos rfl, ← hieq]
            rw [if_pos hiE, hget]
          · have hnmi : next_main_item i s.num_elements.length
                s.infinite_scrolling = (i + 1, none) := by
              unfold next_main_item
              rw [hw, if_neg hlast]
            rw [hnmi]
            rw [previous_selected_record s (i + 1, none) hne]
            rw [prevSelection_record_main s (i + 1)]
            rw [prev_main_item_eq_spec, hw]
            rw [if_neg (by simp : ¬ (i + 1 = 0 ∧ true = false))]
            dsimp only
            rw [if_neg (Nat.succ_ne_zero i)]
            simp only [Nat.add_sub_cancel]
            rw [if_pos hiE, hget]
        · rw [if_neg hcmp]
          rw [previous_selected_record s (i, some (j + 1)) hne]
          rw [prevSelection_record_child s i (j + 1) hi]
          rw [if_neg (Nat.succ_ne_zero j)]
          simp only [Nat.add_sub_cancel]
  · have hjnone : jo = none := by
      cases jo with
      | none => rfl
      | some j =>
          exact absurd ((is_expanded_iff s i).mpr (hj j rfl).1) he
    subst hjnone
    have hnotmem : ¬ i ∈ s.expanded := fun hm =>
      he ((is_expanded_iff s i).mpr hm)
    rw [nextSelection_not_expanded s i none hsel (by simpa using he)]
    by_cases hlast : i ≥ s.num_elements.length - 1
    · have hieq : i = s.num_elements.length - 1 := by omega
      have hnmi : next_main_item i s.num_elements.length
          s.infinite_scrolling = (0, none) := by
        unfold next_main_item
        rw [hw, if_pos hlast]
        simp
      rw [hnmi]
      rw [previous_selected_record s (0, none) hne]
      rw [prevSelection_record_main s 0]
      rw [prev_main_item_eq_spec, hw]
      rw [if_neg (by simp : ¬ ((0 : Nat) = 0 ∧ true = false))]
      dsimp only
      rw [if_pos rfl, ← hieq]
      rw [if_neg hnotmem]
    · have hnmi : next_main_item i s.num_elements.length
          s.infinite_scrolling = (i + 1, none) := by
        unfold next_main_item
        rw [hw, if_neg hlast]
      rw [hnmi]
      rw [previous_selected_record s (i + 1, none) hne]
      rw [prevSelection_record_main s (i + 1)]
      rw [prev_main_item_eq_spec, hw]
      rw [if_neg (by simp : ¬ (i + 1 = 0 ∧ true = false))]
      dsimp only
      rw [if_neg (Nat.succ_ne_zero i)]
      simp only [Nat.add_sub_cancel]
      rw [if_neg hnotmem]

/-- Witness for C1 at counts `[2,1]`, item 0 expanded, wrap on, selection
`Child(0,1)` (the last child): `next()` then `previous()` returns to it. -/
theorem C1_round_trip_witness :
    (({ selected := some (0, some 1), num_elements := [2, 1], expanded := [0],
        infinite_scrolling := true,
        view_state := { offset := 0, first_truncated := 0 } } :
      ListState).next.previous).selected = some (0, some 1) :=
  C1_round_trip _ 0 (some 1) rfl rfl (by decide)
    (by
      intro j hj
      injection hj with hj1
      subst hj1
      exact ⟨by decide, 2, by decide, by decide⟩)

/-- C1 counterexample: with wrap-around disabled, counts `[0,0]`, nothing
expanded and `Main(1)` (the last item, a valid selection) selected, `next()`
clamps at `Main(1)` and `previous()` then moves to `Main(0)`: the round trip
does not restore the selection. -/
theorem C1_round_trip_cex :
    ¬ ((({ selected := some (1, none), num_elements := [0, 0], expanded := [],
           infinite_scrolling := false,
           view_state := { offset := 0, first_truncated := 0 } } :
         ListState).next.previous).selected
        = some (1, none)) := by
  decide

theorem next_of_none (s : ListState) (h : s.num_elements ≠ [])
    (hs : s.selected = none) :
    s.next = { s with selected := some (0, none) } := by
  have hns : nextSelection s = (0, none) := by
    unfold nextSelection
    rw [hs]
  rw [next_eq_record s h, hns]

theorem iter_next_wrap (m : Nat) :
    ∀ (s : ListState) (i : Nat),
      s.infinite_scrolling = true → s.expanded = [] →
      s.num_elements ≠ [] → s.selected = some (i, none) →
      i < s.num_elements.length →
      (ListState.next^[m] s).selected
        = some ((i + m) % s.num_elements.length, none) := by
  induction m with
  | zero =>
      intro s i hw he hne hs hi
      rw [Function.iterate_zero_apply, hs, Nat.add_zero,
        Nat.mod_eq_of_lt hi]
  | succ m ih =>
      intro s i hw he hne hs hi
      have hN : 0 < s.num_elements.length :=
        lt_of_le_of_lt (Nat.zero_le i) hi
      rw [Function.iterate_succ_apply]
      have hns : nextSelection s
          = next_main_item i s.num_elements.length s.infinite_scrolling :=
        nextSelection_not_expanded s i none hs (is_expanded_of_nil s i he)
      have hstep : s.next
          = { s with selected := some ((i + 1) % s.num_elements.length, none) } := by
        rw [next_eq_record s hne, hns]
        unfold next_main_item
        rw [hw]
        by_cases hl : i ≥ s.num_elements.length - 1
        · rw [if_pos hl]
          have hiN : i + 1 = s.num_elements.length := by omega
          simp [hiN, Nat.mod_self]
        · rw [if_neg hl]
          have : (i + 1) % s.num_elements.length = i + 1 :=
            Nat.mod_eq_of_lt (by omega)
          rw [this]
      rw [hstep]
      rw [ih { s with selected := some ((i + 1) % s.num_elements.length, none) }
        ((i + 1) % s.num_elements.length) hw he hne rfl (Nat.mod_lt _ hN)]
      rw [Nat.mod_add_mod]
      have : i + 1 + m = i + (m + 1) := by omega
      rw [this]

theorem iter_next_clamp (m : Nat) :
    ∀ (s : ListState) (i : Nat),
      s.infinite_scrolling = false → s.expanded = [] →
      s.num_elements ≠ [] → s.selected = some (i, none) →
      i < s.num_elements.length →
      (ListState.next^[m] s).selected
        = some (min (i + m) (s.num_elements.length - 1), none) := by
  induction m with
  | zero =>
      intro s i hw he hne hs hi
      have hmin : min (i + 0) (s.num_elements.length - 1) = i := by omega
      rw [Function.iterate_zero_apply, hs, hmin]
  | succ m ih =>
      intro s i hw he hne hs hi
      have hN : 0 < s.num_elements.length :=
        lt_of_le_of_lt (Nat.zero_le i) hi
      rw [Function.iterate_succ_apply]
      have hns : nextSelection s
          = next_main_item i s.num_elements.length s.infinite_scrolling :=
        nextSelection_not_expanded s i none hs (is_expanded_of_nil s i he)
      by_cases hl : i ≥ s.num_elements.length - 1
      · have hstep : s.next = { s with selected := some (i, none) } := by
          rw [next_eq_record s hne, hns]
          unfold next_main_item
          rw [hw, if_pos hl]
          simp
        rw [hstep]
        rw [ih { s with selected := some (i, none) } i hw he hne rfl hi]
        have : min (i + m) (s.num_elements.length - 1)
            = min (i + (m + 1)) (s.num_elements.length - 1) := by omega
        rw [this]
      · have hstep : s.next = { s with selected := some (i + 1, none) } := by
          rw [next_eq_record s hne, hns]
          unfold next_main_item
          rw [hw, if_neg hl]
        rw [hstep]
        rw [ih { s with selected := some (i + 1, none) } (i + 1) hw he hne rfl
          (show i + 1 < s.num_elements.length by omega)]
        have : i + 1 + m = i + (m + 1) := by omega
        rw [this]

/-- C2 amended: from no selection on a non-empty child-count sequence of
length `N` with nothing expanded, the first `next()` lands on `Main(0)`, so
with wrap-around enabled `next()` returns to `Main(0)` after exactly `N + 1`
calls (not `N` as claimed); with wrap-around disabled, `N` calls reach
`Main(N-1)` and every further call leaves the selection there. -/
theorem C2_amended (c : List Nat) (s : ListState) (hc : c ≠ [])
    (hs : s.selected = none) (he : s.expanded = [])
    (hn : s.num_elements = c) :
    (s.infinite_scrolling = true →
      (ListState.next^[c.length + 1] s).selected = some (0, none)) ∧
    (s.infinite_scrolling = false →
      ∀ k, (ListState.next^[c.length + k] s).selected
        = some (c.length - 1, none)) := by
  have hne : s.num_elements ≠ [] := by
    rw [hn]
    exact hc
  have hN : 0 < s.num_elements.length := by
    rw [hn]
    exact List.length_pos.mpr hc
  constructor
  · intro hw
    rw [Function.iterate_succ_apply]
    rw [next_of_none s hne hs]
    rw [iter_next_wrap c.length { s with selected := some (0, none) } 0 hw he
      hne rfl hN]
    dsimp only
    have : (0 + c.length) % s.num_elements.length = 0 := by
      rw [hn]
      simp [Nat.mod_self]
    rw [this]
  · intro hw k
    obtain ⟨M, hM⟩ : ∃ M, c.length = M + 1 := by
      rw [hn] at hN
      exact ⟨c.length - 1, by omega⟩
    have hexp : c.length + k = (M + k) + 1 := by omega
    rw [hexp, Function.iterate_succ_apply]
    rw [next_of_none s hne hs]
    rw [iter_next_clamp (M + k) { s with selected := some (0, none) } 0 hw he
      hne rfl hN]
    dsimp only
    have : min (0 + (M + k)) (s.num_elements.length - 1) = c.length - 1 := by
      rw [hn]
      omega
    rw [this]

/-- Witness for C2 amended on counts `[0, 0]`: with wrap on, 3 calls return
to `Main(0)`; with wrap off, 2 and 2+5 calls sit at `Main(1)`. -/
theorem C2_amended_witness :
    (ListState.next^[3] (ListState.default.set_num_elements [0, 0])).selected
        = some (0, none) ∧
    (ListState.next^[2 + 5]
        ((ListState.default.set_num_elements [0, 0]).set_infinite_scrolling
          false)).selected = some (1, none) :=
  ⟨(C2_amended [0, 0] _ (by decide) rfl rfl rfl).1 rfl,
   (C2_amended [0, 0] _ (by decide) rfl rfl rfl).2 rfl 5⟩

/-- C2 counterexample: on counts `[0, 0]` (N = 2) with wrap-around enabled,
calling `next()` exactly N times from no selection gives `Main(1)`, not
`Main(0)`: the first call lands on `Main(0)`, so N calls reach `Main(N-1)`. -/
theorem C2_cex :
    ¬ ((ListState.next^[2] (ListState.default.set_num_elements [0, 0])).selected
        = some (0, none)) := by
  decide
